import Mathlib

/-!
Verification development for the bizzBook REST backend (Node.js/Express +
Mongoose). The definitions below are a shallow embedding of the invoice
creation / stock decrement workflow and the related route handlers:

* `purchaseQuantity` embeds the handler of `PATCH /product/:id/quantity`
  (src/routes/productRouter.js).
* `processItems`, `saveInvoice` and `createInvoice` embed the handler of
  `POST /invoice` (invoice router) together with the Mongoose
  `pre('validate')` hook and the `unique: true` declaration for
  `invoiceNumber` in the invoice schema (src/models).
* `getInvoiceById` embeds the handler of `GET /invoice/:id`.

Monetary amounts and quantities are modelled as `Int` (the schemas declare
`Number`; the spec recommends integer minor units). The Mongo document store
is modelled as association lists keyed by string ids; `_id` freshness for
invoices is modelled by a `nextInvoiceId` counter.
-/

/-- A product document (productModel schema: name, description, price,
quantity, businessId). -/
structure Product where
  name : String
  description : String
  price : Int
  quantity : Int
  businessId : String
deriving Repr, DecidableEq

/-- One entry of `invoiceSchema.products`: product ref, quantity,
pricePerUnit, totalPrice. -/
structure LineItem where
  product : String
  quantity : Int
  pricePerUnit : Int
  totalPrice : Int
deriving Repr, DecidableEq

/-- An invoice document (invoiceSchema: customer, business, products,
totalAmount, purchaseDate, invoiceNumber); `id` models the Mongo `_id`. -/
structure Invoice where
  id : Nat
  customer : String
  business : String
  products : List LineItem
  totalAmount : Int
  purchaseDate : Nat
  invoiceNumber : String
deriving Repr, DecidableEq

/-- The document store: products and invoices collections, the set of
existing business ids, and a fresh-id counter for invoices. -/
structure DB where
  products : List (String × Product)
  invoices : List Invoice
  businesses : List String
  nextInvoiceId : Nat
deriving Repr, DecidableEq

/-- `productModel.findById(pid)`. -/
def findProduct (db : DB) (pid : String) : Option Product :=
  (db.products.find? (fun pr => pr.1 == pid)).map (fun pr => pr.2)

/-- `product.save()` after mutating the document found under `pid`. -/
def saveProduct (db : DB) (pid : String) (p : Product) : DB :=
  { db with products := db.products.map (fun pr => if pr.1 == pid then (pid, p) else pr) }

/-- `invoiceModel.findById(iid)`. -/
def lookupInvoice (db : DB) (iid : Nat) : Option Invoice :=
  db.invoices.find? (fun i => i.id == iid)

/-- Outcome of the `PATCH /product/:id/quantity` handler. -/
inductive PatchResult where
  /-- 400 `decrementBy must be a positive number` -/
  | invalidDecrement
  /-- 404 `Product not found` -/
  | notFound
  /-- 400 `Product is out of stock` -/
  | outOfStock
  /-- 400 `Only N item(s) in stock` -/
  | onlyInStock (n : Int)
  /-- 200 `Product purchased`, remaining quantity -/
  | purchased (remaining : Int)
deriving Repr, DecidableEq

/-- Handler of `PATCH /product/:id/quantity` (productRouter): validate
`decrementBy`, find the product, check stock, decrement and save. -/
def purchaseQuantity (db : DB) (pid : String) (decrementBy : Int) : DB × PatchResult :=
  if decrementBy ≤ 0 then (db, .invalidDecrement)
  else
    match findProduct db pid with
    | none => (db, .notFound)
    | some product =>
      if product.quantity = 0 then (db, .outOfStock)
      else if decrementBy > product.quantity then (db, .onlyInStock product.quantity)
      else
        let product' := { product with quantity := product.quantity - decrementBy }
        (saveProduct db pid product', .purchased product'.quantity)

/-- Outcome of the `POST /invoice` handler. -/
inductive InvoiceResult where
  /-- 201 `Invoice created` -/
  | created (inv : Invoice)
  /-- 400 `Products list is required` -/
  | productsRequired
  /-- 400 `Product unavailable or insufficient quantity: pid` -/
  | unavailable (pid : String)
  /-- 500 `Invoice creation failed` (caught exception, e.g. duplicate key) -/
  | saveFailed (msg : String)
deriving Repr, DecidableEq

/-- The `for (let item of products)` loop of the `POST /invoice` handler:
per item, find the product, reject if missing or understocked, otherwise
accumulate the line item and persist the decrement. Returns the store after
the decrements applied so far together with either the accumulated line
items and running total or the offending product id. -/
def processItems (db : DB) (items : List (String × Int)) :
    DB × Except String (List LineItem × Int) :=
  match items with
  | [] => (db, .ok ([], 0))
  | (pid, q) :: rest =>
    match findProduct db pid with
    | none => (db, .error pid)
    | some product =>
      if product.quantity < q then (db, .error pid)
      else
        let totalPrice := product.price * q
        let li : LineItem :=
          { product := pid, quantity := q, pricePerUnit := product.price,
            totalPrice := totalPrice }
        let db' := saveProduct db pid { product with quantity := product.quantity - q }
        match processItems db' rest with
        | (db'', .ok (lis, total)) => (db'', .ok (li :: lis, totalPrice + total))
        | (db'', .error e) => (db'', .error e)

/-- `invoice.save()`: the `pre('validate')` hook synthesizes
`invoiceNumber = "INV-" + Date.now()` when none is set (the route never sets
one), and the schema's `unique: true` index rejects a duplicate
`invoiceNumber` with a duplicate-key error. -/
def saveInvoice (db : DB) (customer business : String) (lis : List LineItem)
    (total : Int) (now : Nat) : DB × Except String Invoice :=
  let num := "INV-" ++ toString now
  if db.invoices.any (fun i => i.invoiceNumber == num) then
    (db, .error ("E11000 duplicate key: invoiceNumber " ++ num))
  else
    let inv : Invoice :=
      { id := db.nextInvoiceId, customer := customer, business := business,
        products := lis, totalAmount := total, purchaseDate := now,
        invoiceNumber := num }
    ({ db with invoices := inv :: db.invoices, nextInvoiceId := db.nextInvoiceId + 1 },
     .ok inv)

/-- Handler of `POST /invoice` (invoice router): reject an empty products
list, reserve the items in order, then construct and save the invoice with
`customer := req.user.userId` and `business` from the request body. -/
def createInvoice (db : DB) (userId business : String)
    (items : List (String × Int)) (now : Nat) : DB × InvoiceResult :=
  if items.isEmpty then (db, .productsRequired)
  else
    match processItems db items with
    | (db', .error pid) => (db', .unavailable pid)
    | (db', .ok (lis, total)) =>
      match saveInvoice db' userId business lis total now with
      | (db'', .ok inv) => (db'', .created inv)
      | (db'', .error msg) => (db'', .saveFailed msg)

/-- The JSON body of `POST /invoice`; the handler destructures only
`products` and `business`, so a `customer` field in the body is never read. -/
structure InvoiceRequestBody where
  products : List (String × Int)
  business : String
  customer : Option String
deriving Repr, DecidableEq

/-- The `POST /invoice` route seen from the HTTP boundary: the authenticated
`userId` comes from the verified token, everything else from the body. -/
def handleCreateInvoice (db : DB) (authUserId : String) (body : InvoiceRequestBody)
    (now : Nat) : DB × InvoiceResult :=
  createInvoice db authUserId body.business body.products now

/-- Roles of the user schema / JWT payload. -/
inductive Role where
  | admin
  | manager
  | employee
  | customer
deriving Repr, DecidableEq

/-- Outcome of the `GET /invoice/:id` handler. -/
inductive GetInvoiceResult where
  /-- 404 `Invoice not found` -/
  | notFound
  /-- 403 `Unauthorized access` -/
  | unauthorized
  /-- 200, the invoice -/
  | ok (inv : Invoice)
deriving Repr, DecidableEq

/-- Handler of `GET /invoice/:id`: find the invoice; 404 when absent; 403
when the requester is a customer and not the invoice's customer; otherwise
return it. -/
def getInvoiceById (db : DB) (iid : Nat) (userId : String) (role : Role) :
    GetInvoiceResult :=
  match lookupInvoice db iid with
  | none => .notFound
  | some inv =>
    if role = .customer ∧ inv.customer ≠ userId then .unauthorized
    else .ok inv

/-- The two operations the spec's stock invariant quantifies over: a
purchase through `PATCH /product/:id/quantity` and an invoice creation
through `POST /invoice`. -/
inductive CoreOp where
  | purchase (pid : String) (decrementBy : Int)
  | invoice (userId business : String) (items : List (String × Int)) (now : Nat)
deriving Repr, DecidableEq

/-- Effect of one `CoreOp` on the store. -/
def applyCoreOp (db : DB) (op : CoreOp) : DB :=
  match op with
  | .purchase pid d => (purchaseQuantity db pid d).1
  | .invoice u b items now => (createInvoice db u b items now).1

/-- Effect of a sequence of `CoreOp`s, applied left to right. -/
def applyCoreOps (db : DB) (ops : List CoreOp) : DB :=
  match ops with
  | [] => db
  | op :: rest => applyCoreOps (applyCoreOp db op) rest

/-- Every stored product has non-negative quantity on hand. -/
def nonnegStock (db : DB) : Bool :=
  db.products.all (fun pr => 0 ≤ pr.2.quantity)

/-- Every operation of the exposed interface that touches products or
invoices. CRUD on products is included so that invoice immutability is
checked against later product edits (including price changes). -/
inductive FullOp where
  | purchase (pid : String) (decrementBy : Int)
  | invoice (userId business : String) (items : List (String × Int)) (now : Nat)
  | createProduct (pid : String) (p : Product)
  | updateProduct (pid : String) (p : Product)
  | deleteProduct (pid : String)
deriving Repr, DecidableEq

/-- Effect of one `FullOp` on the store. `createProduct` models
`new productModel(...).save()` with a fresh id, `updateProduct` models
`findByIdAndUpdate`, `deleteProduct` models `findByIdAndDelete`. -/
def applyFullOp (db : DB) (op : FullOp) : DB :=
  match op with
  | .purchase pid d => (purchaseQuantity db pid d).1
  | .invoice u b items now => (createInvoice db u b items now).1
  | .createProduct pid p => { db with products := (pid, p) :: db.products }
  | .updateProduct pid p => saveProduct db pid p
  | .deleteProduct pid =>
      { db with products := db.products.filter (fun pr => pr.1 != pid) }

/-- Effect of a sequence of `FullOp`s, applied left to right. -/
def applyFullOps (db : DB) (ops : List FullOp) : DB :=
  match ops with
  | [] => db
  | op :: rest => applyFullOps (applyFullOp db op) rest

/-- Well-formedness of the id counter: every stored invoice id is below
`nextInvoiceId`, so a newly inserted invoice never shadows an existing one
(Mongo `_id`s are unique). -/
def wfInvoiceIds (db : DB) : Bool :=
  db.invoices.all (fun i => i.id < db.nextInvoiceId)

/-!
## Interleaving model of the purchase handler

The `PATCH /product/:id/quantity` handler awaits twice: once at
`productModel.findById` and once at `product.save()`. Between the two
awaits it validates and computes `product.quantity -= decrementBy` on the
in-memory copy. A concurrent execution of several purchase requests against
one product is therefore modelled by tasks with two atomic phases: a
read-check-compute phase and a write-back phase, interleaved by an
arbitrary schedule.
-/

/-- Execution state of one in-flight purchase request against the shared
product. -/
inductive TaskState where
  /-- handler not yet past `findById` -/
  | pending
  /-- read the stock, passed the checks, computed the new value to write -/
  | readDone (newStock : Int) (reserved : Int)
  /-- `product.save()` completed; `reserved` units were obtained -/
  | done (reserved : Int)
  /-- responded 400/404 without writing -/
  | failed
deriving Repr, DecidableEq

/-- One atomic phase of the purchase handler for a task requesting `q`
units, against current shared stock: phase one is
validate + `findById` + stock checks + compute (exactly the checks of
`purchaseQuantity`), phase two is `product.save()` writing the value
computed from the earlier read. -/
def stepTask (stock : Int) (q : Int) (ts : TaskState) : Int × TaskState :=
  match ts with
  | .pending =>
    if q ≤ 0 then (stock, .failed)
    else if stock = 0 then (stock, .failed)
    else if q > stock then (stock, .failed)
    else (stock, .readDone (stock - q) q)
  | .readDone newStock r => (newStock, .done r)
  | s => (stock, s)

/-- Shared stock plus the per-task request amounts and states. -/
structure ConcState where
  stock : Int
  tasks : List (Int × TaskState)
deriving Repr, DecidableEq

/-- Run one phase of task `i` (out-of-range indices are no-ops). -/
def stepAt (cs : ConcState) (i : Nat) : ConcState :=
  match cs.tasks.get? i with
  | none => cs
  | some (q, ts) =>
    let (stock', ts') := stepTask cs.stock q ts
    { stock := stock',
      tasks := cs.tasks.set i (q, ts') }

/-- Run a schedule: a list of task indices, each entry executing that
task's next atomic phase. -/
def runSchedule (cs : ConcState) (sched : List Nat) : ConcState :=
  match sched with
  | [] => cs
  | i :: rest => runSchedule (stepAt cs i) rest

/-- Total quantity successfully reserved across all completed tasks. -/
def totalReserved (cs : ConcState) : Int :=
  (cs.tasks.map (fun t =>
    match t.2 with
    | .done r => r
    | _ => 0)).sum

/-- The reservation loop's per-item failure condition, read off the
handler's `if (!product || product.quantity < quantity)`. -/
def itemUnavailable (db : DB) (pid : String) (q : Int) : Bool :=
  match findProduct db pid with
  | none => true
  | some p => decide (p.quantity < q)

/-- `pricePerUnit` provenance, mirroring the loop of `POST /invoice`: each
line item is built from the product document read in the store state as it
stands when that item's own reservation runs, with
`pricePerUnit := product.price` and `totalPrice := product.price * quantity`
taken from that read. -/
inductive ReservesWith : DB → List (String × Int) → List LineItem → Prop
  | nil (db : DB) : ReservesWith db [] []
  | cons (db : DB) (pid : String) (q : Int) (p : Product)
      (rest : List (String × Int)) (lis : List LineItem)
      (hfind : findProduct db pid = some p)
      (hstock : ¬ p.quantity < q)
      (htail : ReservesWith
        (saveProduct db pid { p with quantity := p.quantity - q }) rest lis) :
      ReservesWith db ((pid, q) :: rest)
        ({ product := pid, quantity := q, pricePerUnit := p.price,
           totalPrice := p.price * q } :: lis)

/-! ## Concrete stores used by witnesses and counterexamples -/

/-- Products A (stock 5, price 10) and B (stock 0, price 7). -/
def dbAB : DB :=
  { products :=
      [("A", { name := "A", description := "", price := 10, quantity := 5,
               businessId := "biz" }),
       ("B", { name := "B", description := "", price := 7, quantity := 0,
               businessId := "biz" })],
    invoices := [], businesses := [], nextInvoiceId := 0 }

/-- Product A alone (stock 5, price 10); B does not exist here. -/
def dbOnlyA : DB :=
  { products :=
      [("A", { name := "A", description := "", price := 10, quantity := 5,
               businessId := "biz" })],
    invoices := [], businesses := [], nextInvoiceId := 0 }

/-! ## Helper lemmas -/

theorem saveProduct_invoices (db : DB) (pid : String) (p : Product) :
    (saveProduct db pid p).invoices = db.invoices := rfl

theorem saveProduct_businesses (db : DB) (pid : String) (p : Product) :
    (saveProduct db pid p).businesses = db.businesses := rfl

theorem saveProduct_nextInvoiceId (db : DB) (pid : String) (p : Product) :
    (saveProduct db pid p).nextInvoiceId = db.nextInvoiceId := rfl

/-- The reservation loop touches only the products collection. -/
theorem processItems_fst_eq (db : DB) (items : List (String × Int)) :
    (processItems db items).1 =
      { db with products := (processItems db items).1.products } := by
  induction items generalizing db with
  | nil => rfl
  | cons hd rest ih =>
    obtain ⟨pid, q⟩ := hd
    show (processItems db ((pid, q) :: rest)).1 = _
    simp only [processItems]
    cases hf : findProduct db pid with
    | none => rfl
    | some product =>
      by_cases hq : product.quantity < q
      · simp only [hf, if_pos hq]
      · simp only [hf, if_neg hq]
        rcases hp : processItems
            (saveProduct db pid { product with quantity := product.quantity - q })
            rest with ⟨db2, r⟩
        have h2 := ih (saveProduct db pid { product with quantity := product.quantity - q })
        rw [hp] at h2
        cases r with
        | ok v =>
          obtain ⟨lis, total⟩ := v
          simpa using h2
        | error e => simpa using h2

theorem processItems_invoices (db : DB) (items : List (String × Int)) :
    (processItems db items).1.invoices = db.invoices := by
  conv_lhs => rw [processItems_fst_eq]

theorem processItems_businesses (db : DB) (items : List (String × Int)) :
    (processItems db items).1.businesses = db.businesses := by
  conv_lhs => rw [processItems_fst_eq]

theorem processItems_nextInvoiceId (db : DB) (items : List (String × Int)) :
    (processItems db items).1.nextInvoiceId = db.nextInvoiceId := by
  conv_lhs => rw [processItems_fst_eq]

/-- Inversion of a successful `POST /invoice`: the items were non-empty, the
reservation loop succeeded, the generated invoice number was fresh, and the
created invoice is built from the token's user id, the body's business id,
the accumulated line items and the running total, stamped with `now`. -/
theorem createInvoice_created_spec (db db2 : DB) (u b : String)
    (items : List (String × Int)) (now : Nat) (inv : Invoice)
    (h : createInvoice db u b items now = (db2, .created inv)) :
    ∃ db1 lis total,
      items.isEmpty = false ∧
      processItems db items = (db1, .ok (lis, total)) ∧
      db1.invoices.any (fun i => i.invoiceNumber == "INV-" ++ toString now) = false ∧
      inv = { id := db1.nextInvoiceId, customer := u, business := b,
              products := lis, totalAmount := total, purchaseDate := now,
              invoiceNumber := "INV-" ++ toString now } ∧
      db2 = { db1 with
                invoices := inv :: db1.invoices,
                nextInvoiceId := db1.nextInvoiceId + 1 } := by
  unfold createInvoice at h
  cases hie : items.isEmpty with
  | true => rw [hie] at h; simp at h
  | false =>
    rw [hie] at h
    simp only [Bool.false_eq_true, if_false] at h
    rcases hp : processItems db items with ⟨db1, r⟩
    rw [hp] at h
    cases r with
    | error e => simp at h
    | ok v =>
      obtain ⟨lis, total⟩ := v
      unfold saveInvoice at h
      dsimp only at h
      cases hdup : db1.invoices.any
          (fun i => i.invoiceNumber == "INV-" ++ toString now) with
      | true => rw [hdup] at h; simp at h
      | false =>
        rw [hdup] at h
        simp only [Bool.false_eq_true, if_false, Prod.mk.injEq,
          InvoiceResult.created.injEq] at h
        obtain ⟨hdb2, hinv⟩ := h
        refine ⟨db1, lis, total, rfl, rfl, hdup, hinv.symm, ?_⟩
        rw [← hdb2, ← hinv]

/-- Claim C1 (refuted: the code loses updates). The purchase handler is a
separate read (`findById`) and write (`save`): with on-hand quantity Q = 1
and two concurrent requests for 1 unit each, the interleaving in which both
requests read before either writes lets both succeed, so 2 units are
reserved from a stock of 1 — the total reserved exceeds Q and the
check-then-decrement is not atomic. -/
theorem purchase_lost_update_oversell :
    totalReserved (runSchedule
      { stock := 1, tasks := [(1, .pending), (1, .pending)] } [0, 1, 0, 1]) = 2
    ∧ (runSchedule
      { stock := 1, tasks := [(1, .pending), (1, .pending)] } [0, 1, 0, 1]).tasks
        = [(1, .done 1), (1, .done 1)]
    ∧ ¬ totalReserved (runSchedule
      { stock := 1, tasks := [(1, .pending), (1, .pending)] } [0, 1, 0, 1]) ≤ 1 := by
  decide

/-- Claim C4 (refuted: the code accepts non-positive quantities in invoice
line items). `POST /invoice` with the single item (A, -2) against product A
with stock 5 and price 10 does not fail with a validation error: it creates
an invoice whose line has quantity -2 and total -20, and it writes the
ledger, raising A's stock to 7. -/
theorem createInvoice_accepts_nonpositive_quantity :
    (createInvoice dbAB "u" "biz" [("A", -2)] 7).2 =
      .created { id := 0, customer := "u", business := "biz",
                 products := [{ product := "A", quantity := -2,
                                pricePerUnit := 10, totalPrice := -20 }],
                 totalAmount := -20, purchaseDate := 7, invoiceNumber := "INV-7" }
    ∧ findProduct (createInvoice dbAB "u" "biz" [("A", -2)] 7).1 "A" =
      some { name := "A", description := "", price := 10, quantity := 7,
             businessId := "biz" } := by
  exact ⟨rfl, rfl⟩

/-- Claim C6, counterexample: in the invoice reservation path the two
failure causes are not distinguishable. In `dbOnlyA` product B does not
exist (NotFound cause); in `dbAB` product B exists with stock 0 < 3
(InsufficientStock cause); `POST /invoice` for item (B, 3) produces the
identical observable outcome — the same 400
`Product unavailable or insufficient quantity: B` — in both stores. -/
theorem createInvoice_merges_notfound_and_insufficient :
    findProduct dbOnlyA "B" = none
    ∧ findProduct dbAB "B" =
        some { name := "B", description := "", price := 7, quantity := 0,
               businessId := "biz" }
    ∧ (createInvoice dbOnlyA "u" "biz" [("B", 3)] 0).2 = .unavailable "B"
    ∧ (createInvoice dbAB "u" "biz" [("B", 3)] 0).2 =
        (createInvoice dbOnlyA "u" "biz" [("B", 3)] 0).2 := by
  refine ⟨rfl, rfl, rfl, rfl⟩

/-- Claim C6 as amended: the purchase endpoint
(`PATCH /product/:id/quantity`) distinguishes the two causes — a missing
product yields 404 NotFound while an existing product with insufficient
stock yields a 400 out-of-stock / only-N-in-stock response, never NotFound.
The reservation performed per line item by `POST /invoice` instead reports
both causes with the one 400 message naming the offending product id, so
the caller cannot distinguish them there. -/
theorem reserve_failure_reporting (db : DB) (pid : String) (q : Int)
    (hq : 0 < q) :
    (findProduct db pid = none → purchaseQuantity db pid q = (db, .notFound))
    ∧ (∀ p, findProduct db pid = some p → p.quantity < q →
        ((purchaseQuantity db pid q).2 = .outOfStock ∨
         (purchaseQuantity db pid q).2 = .onlyInStock p.quantity)
        ∧ (purchaseQuantity db pid q).2 ≠ .notFound)
    ∧ (∀ u b now rest, itemUnavailable db pid q = true →
        (createInvoice db u b ((pid, q) :: rest) now).2 = .unavailable pid) := by
  have hq' : ¬ q ≤ 0 := not_le.mpr hq
  refine ⟨?_, ?_, ?_⟩
  · intro hnone
    unfold purchaseQuantity
    rw [if_neg hq', hnone]
  · intro p hfind hlt
    unfold purchaseQuantity
    rw [if_neg hq', hfind]
    dsimp only
    by_cases h0 : p.quantity = 0
    · rw [if_pos h0]
      exact ⟨Or.inl rfl, by simp⟩
    · rw [if_neg h0, if_pos (by exact lt_of_lt_of_le hlt le_rfl |> gt_iff_lt.mpr)]
      exact ⟨Or.inr rfl, by simp⟩
  · intro u b now rest hunav
    unfold itemUnavailable at hunav
    have hpi : processItems db ((pid, q) :: rest) = (db, Except.error pid) := by
      unfold processItems
      cases hfind : findProduct db pid with
      | none => rfl
      | some p =>
        rw [hfind] at hunav
        have hlt : p.quantity < q := by simpa using hunav
        simp [hlt]
    unfold createInvoice
    simp only [List.isEmpty_cons, Bool.false_eq_true, if_false]
    rw [hpi]

/-- Witness for `reserve_failure_reporting` at concrete inputs: a purchase
of 3 units of the missing product B in `dbOnlyA` is a 404, the same
purchase against B with stock 0 in `dbAB` is a 400 out-of-stock, and the
invoice path reports the merged unavailable message for B. -/
theorem reserve_failure_reporting_witness :
    purchaseQuantity dbOnlyA "B" 3 = (dbOnlyA, .notFound)
    ∧ ((purchaseQuantity dbAB "B" 3).2 = .outOfStock ∨
       (purchaseQuantity dbAB "B" 3).2 = .onlyInStock 0)
    ∧ (createInvoice dbAB "u" "biz" [("B", 3)] 0).2 = .unavailable "B" :=
  ⟨(reserve_failure_reporting dbOnlyA "B" 3 (by decide)).1 (by decide),
   ((reserve_failure_reporting dbAB "B" 3 (by decide)).2.1
     { name := "B", description := "", price := 7, quantity := 0,
       businessId := "biz" } (by decide) (by decide)).1,
   (reserve_failure_reporting dbAB "B" 3 (by decide)).2.2 "u" "biz" 0 [] (by decide)⟩

/-- If the first `pre` items all reserve successfully, taking the store to
`db1`, and the next item fails there (product absent or understocked), the
reservation loop returns the offending product id and the store `db1` — the
decrements of `pre` stay applied and the remaining items are never
examined. -/
theorem processItems_append_error (pre : List (String × Int)) (db db1 : DB)
    (lis : List LineItem) (t : Int) (pidB : String) (qB : Int)
    (rest : List (String × Int))
    (h1 : processItems db pre = (db1, .ok (lis, t)))
    (h2 : itemUnavailable db1 pidB qB = true) :
    processItems db (pre ++ (pidB, qB) :: rest) = (db1, .error pidB) := by
  induction pre generalizing db lis t with
  | nil =>
    simp only [processItems, Prod.mk.injEq] at h1
    obtain ⟨rfl, -⟩ := h1
    unfold itemUnavailable at h2
    show processItems db ((pidB, qB) :: rest) = (db, .error pidB)
    unfold processItems
    cases hfind : findProduct db pidB with
    | none => rfl
    | some p =>
      rw [hfind] at h2
      have hlt : p.quantity < qB := by simpa using h2
      simp [hlt]
  | cons hd pre' ih =>
    obtain ⟨pid, q⟩ := hd
    rw [List.cons_append]
    unfold processItems at h1 ⊢
    cases hfind : findProduct db pid with
    | none => rw [hfind] at h1; simp at h1
    | some p =>
      rw [hfind] at h1
      by_cases hq : p.quantity < q
      · simp [hq] at h1
      · simp only [hq, if_false] at h1 ⊢
        rcases hp : processItems
            (saveProduct db pid { p with quantity := p.quantity - q })
            pre' with ⟨dbm, r⟩
        rw [hp] at h1
        cases r with
        | error e => simp at h1
        | ok v =>
          obtain ⟨lis', t'⟩ := v
          simp only [Prod.mk.injEq, Except.ok.injEq] at h1
          obtain ⟨rfl, -⟩ := h1
          rw [ih _ _ _ hp]

/-- Claim C2: when the first `pre` items of a `POST /invoice` request all
reserve successfully (taking the store from `db` to `db1`) and the next
item (pidB, qB) fails there — product absent or quantity over stock — the
handler stops (the items after it are irrelevant to the outcome), answers
400 naming pidB, creates no invoice, and leaves the store at `db1`: the
decrements applied for `pre` are not rolled back. -/
theorem createInvoice_no_rollback_abort (db db1 : DB) (u b : String)
    (pre : List (String × Int)) (pidB : String) (qB : Int)
    (rest : List (String × Int)) (now : Nat) (lis : List LineItem) (t : Int)
    (h1 : processItems db pre = (db1, .ok (lis, t)))
    (h2 : itemUnavailable db1 pidB qB = true) :
    createInvoice db u b (pre ++ (pidB, qB) :: rest) now = (db1, .unavailable pidB)
    ∧ db1.invoices = db.invoices := by
  constructor
  · unfold createInvoice
    have hne : (pre ++ (pidB, qB) :: rest).isEmpty = false := by
      cases pre <;> simp
    simp only [hne, Bool.false_eq_true, if_false]
    rw [processItems_append_error pre db db1 lis t pidB qB rest h1 h2]
  · have hinv := processItems_invoices db pre
    rw [h1] at hinv
    exact hinv

/-- The store of `dbAB` after reserving 2 units of A: A's stock is down to
3, B untouched, still no invoices. -/
def dbABafterA : DB :=
  { products :=
      [("A", { name := "A", description := "", price := 10, quantity := 3,
               businessId := "biz" }),
       ("B", { name := "B", description := "", price := 7, quantity := 0,
               businessId := "biz" })],
    invoices := [], businesses := [], nextInvoiceId := 0 }

/-- Witness for `createInvoice_no_rollback_abort` on the spec's example:
items [(A,2),(B,3)] with A at stock 5 (price 10) and B at stock 0 leave A's
stock at 3, create no invoice, and the failure names B. -/
theorem createInvoice_no_rollback_abort_witness :
    createInvoice dbAB "u" "biz" [("A", 2), ("B", 3)] 0 =
      (dbABafterA, .unavailable "B")
    ∧ dbABafterA.invoices = dbAB.invoices :=
  createInvoice_no_rollback_abort dbAB dbABafterA "u" "biz" [("A", 2)] "B" 3 [] 0
    [{ product := "A", quantity := 2, pricePerUnit := 10, totalPrice := 20 }] 20
    (by rfl) (by rfl)

theorem findProduct_nonneg (db : DB) (pid : String) (p : Product)
    (hall : nonnegStock db = true) (hfind : findProduct db pid = some p) :
    0 ≤ p.quantity := by
  unfold findProduct at hfind
  rcases Option.map_eq_some'.mp hfind with ⟨pr, hpr, hp2⟩
  have hmem := List.mem_of_find?_eq_some hpr
  unfold nonnegStock at hall
  rw [List.all_eq_true] at hall
  have := hall pr hmem
  rw [hp2] at this
  exact of_decide_eq_true this

theorem saveProduct_nonneg (db : DB) (pid : String) (p : Product)
    (hall : nonnegStock db = true) (hp : 0 ≤ p.quantity) :
    nonnegStock (saveProduct db pid p) = true := by
  unfold nonnegStock saveProduct at *
  rw [List.all_eq_true] at hall ⊢
  intro pr hpr
  rcases List.mem_map.mp hpr with ⟨pr0, hpr0, hmap⟩
  by_cases he : pr0.1 == pid
  · rw [if_pos he] at hmap
    rw [← hmap]
    exact decide_eq_true hp
  · rw [if_neg he] at hmap
    rw [← hmap]
    exact hall pr0 hpr0

theorem processItems_nonneg (db : DB) (items : List (String × Int))
    (hall : nonnegStock db = true) :
    nonnegStock (processItems db items).1 = true := by
  induction items generalizing db with
  | nil => exact hall
  | cons hd rest ih =>
    obtain ⟨pid, q⟩ := hd
    show nonnegStock (processItems db ((pid, q) :: rest)).1 = true
    unfold processItems
    cases hfind : findProduct db pid with
    | none => exact hall
    | some p =>
      by_cases hq : p.quantity < q
      · simp only [if_pos hq]
        exact hall
      · simp only [if_neg hq]
        have hsub : 0 ≤ p.quantity - q := sub_nonneg.mpr (not_lt.mp hq)
        have hsave : nonnegStock
            (saveProduct db pid { p with quantity := p.quantity - q }) = true :=
          saveProduct_nonneg db pid _ hall hsub
        have htail := ih _ hsave
        rcases hp : processItems
            (saveProduct db pid { p with quantity := p.quantity - q })
            rest with ⟨db2, r⟩
        rw [hp] at htail
        cases r with
        | ok v => obtain ⟨lis, total⟩ := v; exact htail
        | error e => exact htail

theorem purchaseQuantity_nonneg (db : DB) (pid : String) (d : Int)
    (hall : nonnegStock db = true) :
    nonnegStock (purchaseQuantity db pid d).1 = true := by
  unfold purchaseQuantity
  by_cases hd : d ≤ 0
  · rw [if_pos hd]; exact hall
  · rw [if_neg hd]
    cases hfind : findProduct db pid with
    | none => exact hall
    | some p =>
      by_cases h0 : p.quantity = 0
      · simp only [if_pos h0]; exact hall
      · simp only [if_neg h0]
        by_cases hgt : d > p.quantity
        · simp only [if_pos hgt]; exact hall
        · simp only [if_neg hgt]
          exact saveProduct_nonneg db pid _ hall
            (sub_nonneg.mpr (not_lt.mp hgt))

theorem saveInvoice_products (db : DB) (c b : String) (lis : List LineItem)
    (total : Int) (now : Nat) :
    (saveInvoice db c b lis total now).1.products = db.products := by
  unfold saveInvoice
  dsimp only
  split <;> rfl

theorem createInvoice_nonneg (db : DB) (u b : String)
    (items : List (String × Int)) (now : Nat)
    (hall : nonnegStock db = true) :
    nonnegStock (createInvoice db u b items now).1 = true := by
  unfold createInvoice
  cases hie : items.isEmpty with
  | true => simp only [if_pos rfl]; exact hall
  | false =>
    simp only [Bool.false_eq_true, if_false]
    have hpi := processItems_nonneg db items hall
    rcases hp : processItems db items with ⟨db1, r⟩
    rw [hp] at hpi
    cases r with
    | error e => exact hpi
    | ok v =>
      obtain ⟨lis, total⟩ := v
      show nonnegStock (match saveInvoice db1 u b lis total now with
        | (db'', Except.ok inv) => (db'', InvoiceResult.created inv)
        | (db'', Except.error msg) => (db'', InvoiceResult.saveFailed msg)).1 = true
      rcases hs : saveInvoice db1 u b lis total now with ⟨db2, r2⟩
      have hprod : db2.products = db1.products := by
        have := saveInvoice_products db1 u b lis total now
        rw [hs] at this
        exact this
      have hnn : nonnegStock db2 = true := by
        unfold nonnegStock at hpi ⊢
        rw [hprod]
        exact hpi
      cases r2 with
      | ok inv => exact hnn
      | error msg => exact hnn

/-- Claim C3: starting from a store in which every product's quantity on
hand is non-negative, any sequence of operations of the exposed interface —
purchases through `PATCH /product/:id/quantity` and invoice creations
through `POST /invoice` — keeps every product's quantity on hand
non-negative; in particular every product the final store resolves is at or
above zero. Arbitrary sequences cover every intermediate state, so the
invariant holds after every operation. -/
theorem stock_stays_nonneg (db : DB) (ops : List CoreOp)
    (h : nonnegStock db = true) :
    nonnegStock (applyCoreOps db ops) = true
    ∧ ∀ pid p, findProduct (applyCoreOps db ops) pid = some p →
        0 ≤ p.quantity := by
  have hmain : nonnegStock (applyCoreOps db ops) = true := by
    induction ops generalizing db with
    | nil => exact h
    | cons op rest ih =>
      show nonnegStock (applyCoreOps (applyCoreOp db op) rest) = true
      apply ih
      cases op with
      | purchase pid d => exact purchaseQuantity_nonneg db pid d h
      | invoice u b items now => exact createInvoice_nonneg db u b items now h
  exact ⟨hmain, fun pid p hfind => findProduct_nonneg _ pid p hmain hfind⟩

/-- Witness for `stock_stays_nonneg`: from `dbAB`, a purchase of 2 units of
A, an invoice for one more unit of A, and an over-large purchase attempt
leave every stored quantity non-negative. -/
theorem stock_stays_nonneg_witness :
    nonnegStock (applyCoreOps dbAB
      [.purchase "A" 2, .invoice "u" "biz" [("A", 1)] 3, .purchase "A" 99]) =
      true :=
  (stock_stays_nonneg dbAB
    [.purchase "A" 2, .invoice "u" "biz" [("A", 1)] 3, .purchase "A" 99]
    (by rfl)).1

/-- A successful run of the reservation loop reserves each item at the
store state current for that item (`ReservesWith`), returns a running total
equal to the sum of the line totals, and each line total is the line's
quantity times its captured unit price. -/
theorem processItems_ok_spec (items : List (String × Int)) (db db' : DB)
    (lis : List LineItem) (total : Int)
    (h : processItems db items = (db', .ok (lis, total))) :
    ReservesWith db items lis
    ∧ total = (lis.map (fun li => li.totalPrice)).sum
    ∧ ∀ li ∈ lis, li.totalPrice = li.quantity * li.pricePerUnit := by
  induction items generalizing db lis total with
  | nil =>
    simp only [processItems, Prod.mk.injEq, Except.ok.injEq] at h
    obtain ⟨-, hl, ht⟩ := h
    subst hl; subst ht
    exact ⟨ReservesWith.nil db, by simp, by simp⟩
  | cons hd rest ih =>
    obtain ⟨pid, q⟩ := hd
    unfold processItems at h
    cases hfind : findProduct db pid with
    | none => rw [hfind] at h; simp at h
    | some p =>
      rw [hfind] at h
      by_cases hq : p.quantity < q
      · simp [hq] at h
      · simp only [hq, if_false] at h
        rcases hp : processItems
            (saveProduct db pid { p with quantity := p.quantity - q })
            rest with ⟨dbm, r⟩
        rw [hp] at h
        cases r with
        | error e => simp at h
        | ok v =>
          obtain ⟨lis', t'⟩ := v
          simp only [Prod.mk.injEq, Except.ok.injEq] at h
          obtain ⟨hdb, hl, ht⟩ := h
          subst hdb; subst hl; subst ht
          obtain ⟨ih1, ih2, ih3⟩ := ih _ _ _ hp
          refine ⟨ReservesWith.cons db pid q p rest lis' hfind hq ih1, ?_, ?_⟩
          · simp only [List.map_cons, List.sum_cons]
            rw [ih2]
          · intro li hli
            rcases List.mem_cons.mp hli with hhd | htl
            · subst hhd
              exact (mul_comm p.price q).symm ▸ rfl
            · exact ih3 li htl

/-- Claim C5: on a successful `POST /invoice` the returned invoice's
`totalAmount` equals the sum of its lines' `totalPrice` values, each line's
`totalPrice` is its quantity times its `pricePerUnit`, and each line's
`pricePerUnit` is the price of the product as read in the store state at
the moment of that line's own reservation (`ReservesWith`), not a single
snapshot taken for the whole order. -/
theorem createInvoice_pricing_correct (db db2 : DB) (u b : String)
    (items : List (String × Int)) (now : Nat) (inv : Invoice)
    (h : createInvoice db u b items now = (db2, .created inv)) :
    inv.totalAmount = (inv.products.map (fun li => li.totalPrice)).sum
    ∧ (∀ li ∈ inv.products, li.totalPrice = li.quantity * li.pricePerUnit)
    ∧ ReservesWith db items inv.products := by
  obtain ⟨db1, lis, total, -, hp, -, hinv, -⟩ :=
    createInvoice_created_spec db db2 u b items now inv h
  obtain ⟨h1, h2, h3⟩ := processItems_ok_spec items db db1 lis total hp
  subst hinv
  exact ⟨h2, h3, h1⟩

/-- The invoice created by `POST /invoice` on `dbAB` for the single item
(A, 2) at time 5. -/
def invW : Invoice :=
  { id := 0, customer := "u", business := "biz",
    products := [{ product := "A", quantity := 2, pricePerUnit := 10,
                   totalPrice := 20 }],
    totalAmount := 20, purchaseDate := 5, invoiceNumber := "INV-5" }

/-- `dbAB` after that creation: A's stock is 3 and `invW` is stored. -/
def dbAfterInvW : DB :=
  { products :=
      [("A", { name := "A", description := "", price := 10, quantity := 3,
               businessId := "biz" }),
       ("B", { name := "B", description := "", price := 7, quantity := 0,
               businessId := "biz" })],
    invoices := [invW], businesses := [], nextInvoiceId := 1 }

/-- Witness for `createInvoice_pricing_correct` on the spec's example:
items [(A, 2)] with A at stock 5 and price 10 yield one line with total 20,
invoice total 20, priced from the store state of that reservation. -/
theorem createInvoice_pricing_correct_witness :
    invW.totalAmount = (invW.products.map (fun li => li.totalPrice)).sum
    ∧ ReservesWith dbAB [("A", 2)] invW.products :=
  ⟨(createInvoice_pricing_correct dbAB dbAfterInvW "u" "biz" [("A", 2)] 5 invW
      (by rfl)).1,
   (createInvoice_pricing_correct dbAB dbAfterInvW "u" "biz" [("A", 2)] 5 invW
      (by rfl)).2.2⟩

theorem purchaseQuantity_fst_shape (db : DB) (pid : String) (d : Int) :
    (purchaseQuantity db pid d).1.invoices = db.invoices
    ∧ (purchaseQuantity db pid d).1.nextInvoiceId = db.nextInvoiceId := by
  unfold purchaseQuantity
  split
  · exact ⟨rfl, rfl⟩
  · split
    · exact ⟨rfl, rfl⟩
    · split
      · exact ⟨rfl, rfl⟩
      · split
        · exact ⟨rfl, rfl⟩
        · exact ⟨rfl, rfl⟩

/-- What `POST /invoice` can do to the invoices collection: leave it alone,
or prepend one invoice carrying the fresh id. -/
theorem createInvoice_fst_shape (db : DB) (u b : String)
    (items : List (String × Int)) (now : Nat) :
    ((createInvoice db u b items now).1.invoices = db.invoices ∧
     (createInvoice db u b items now).1.nextInvoiceId = db.nextInvoiceId)
    ∨ (∃ inv : Invoice, inv.id = db.nextInvoiceId ∧
        (createInvoice db u b items now).1.invoices = inv :: db.invoices ∧
        (createInvoice db u b items now).1.nextInvoiceId = db.nextInvoiceId + 1) := by
  unfold createInvoice
  cases hie : items.isEmpty with
  | true => exact Or.inl ⟨rfl, rfl⟩
  | false =>
    simp only [Bool.false_eq_true, if_false]
    have hinvs := processItems_invoices db items
    have hnext := processItems_nextInvoiceId db items
    rcases hp : processItems db items with ⟨db1, r⟩
    rw [hp] at hinvs hnext
    cases r with
    | error e => exact Or.inl ⟨hinvs, hnext⟩
    | ok v =>
      obtain ⟨lis, total⟩ := v
      show ((match saveInvoice db1 u b lis total now with
        | (db'', Except.ok inv) => (db'', InvoiceResult.created inv)
        | (db'', Except.error msg) => (db'', InvoiceResult.saveFailed msg)).1.invoices
          = db.invoices ∧ _) ∨ _
      unfold saveInvoice
      dsimp only
      cases hdup : db1.invoices.any
          (fun i => i.invoiceNumber == "INV-" ++ toString now) with
      | true =>
        simp only [hdup, if_true]
        exact Or.inl ⟨hinvs, hnext⟩
      | false =>
        simp only [hdup, Bool.false_eq_true, if_false]
        refine Or.inr ⟨{ id := db1.nextInvoiceId, customer := u, business := b, products := lis, totalAmount := total, purchaseDate := now, invoiceNumber := "INV-" ++ toString now }, ?_, ?_, ?_⟩
        · exact hnext
        · show { id := db1.nextInvoiceId, customer := u, business := b, products := lis, totalAmount := total, purchaseDate := now, invoiceNumber := "INV-" ++ toString now } :: db1.invoices = _ :: db.invoices
          rw [hinvs]
        · show db1.nextInvoiceId + 1 = db.nextInvoiceId + 1
          rw [hnext]

/-- Applying one operation of the interface keeps the id counter
well-formed and leaves every already-stored invoice untouched. -/
theorem applyFullOp_preserves (db : DB) (op : FullOp)
    (hwf : wfInvoiceIds db = true) :
    wfInvoiceIds (applyFullOp db op) = true
    ∧ ∀ iid inv, lookupInvoice db iid = some inv →
        lookupInvoice (applyFullOp db op) iid = some inv := by
  have hgen : ∀ db' : DB, db'.invoices = db.invoices →
      db'.nextInvoiceId = db.nextInvoiceId →
      wfInvoiceIds db' = true
      ∧ ∀ iid inv, lookupInvoice db iid = some inv →
          lookupInvoice db' iid = some inv := by
    intro db' hi hn
    constructor
    · unfold wfInvoiceIds at hwf ⊢
      rw [hi, hn]; exact hwf
    · intro iid inv h
      unfold lookupInvoice at h ⊢
      rw [hi]; exact h
  have hcons : ∀ (db' : DB) (inv0 : Invoice), inv0.id = db.nextInvoiceId →
      db'.invoices = inv0 :: db.invoices →
      db'.nextInvoiceId = db.nextInvoiceId + 1 →
      wfInvoiceIds db' = true
      ∧ ∀ iid inv, lookupInvoice db iid = some inv →
          lookupInvoice db' iid = some inv := by
    intro db' inv0 hid hi hn
    unfold wfInvoiceIds at hwf
    rw [List.all_eq_true] at hwf
    constructor
    · unfold wfInvoiceIds
      rw [hi, hn, List.all_cons]
      apply Bool.and_eq_true_iff.mpr
      constructor
      · exact decide_eq_true (hid ▸ Nat.lt_succ_self db.nextInvoiceId)
      · rw [List.all_eq_true]
        intro i hi2
        exact decide_eq_true
          (Nat.lt_succ_of_lt (of_decide_eq_true (hwf i hi2)))
    · intro iid inv h
      unfold lookupInvoice at h ⊢
      rw [hi]
      have hmem := List.mem_of_find?_eq_some h
      have hbeq := List.find?_some h
      have hlt : inv.id < db.nextInvoiceId := of_decide_eq_true (hwf inv hmem)
      have hid2 : inv.id = iid := by simpa using hbeq
      have hne : (inv0.id == iid) = false := by
        refine beq_eq_false_iff_ne.mpr ?_
        omega
      rw [List.find?_cons_of_neg _ (by simp [hne])]
      exact h
  cases op with
  | purchase pid d =>
    obtain ⟨hi, hn⟩ := purchaseQuantity_fst_shape db pid d
    exact hgen _ hi hn
  | invoice u b items now =>
    rcases createInvoice_fst_shape db u b items now with ⟨hi, hn⟩ | ⟨inv0, hid, hi, hn⟩
    · exact hgen _ hi hn
    · exact hcons _ inv0 hid hi hn
  | createProduct pid p => exact hgen _ rfl rfl
  | updateProduct pid p => exact hgen _ rfl rfl
  | deleteProduct pid => exact hgen _ rfl rfl

/-- Claim C7: once stored, an invoice is never mutated or deleted by any
operation of the exposed interface — purchases, invoice creations, and
product create/update/delete (price changes included) all leave an existing
invoice exactly as stored, and retrieving it by id yields the same response
before and after any such sequence (so two retrievals with no intervening
operations, or any operations at all, agree field by field). -/
theorem invoice_immutable (db : DB) (ops : List FullOp) (iid : Nat)
    (inv : Invoice) (u : String) (r : Role)
    (hwf : wfInvoiceIds db = true)
    (h : lookupInvoice db iid = some inv) :
    lookupInvoice (applyFullOps db ops) iid = some inv
    ∧ getInvoiceById (applyFullOps db ops) iid u r = getInvoiceById db iid u r := by
  have hmain : wfInvoiceIds (applyFullOps db ops) = true
      ∧ lookupInvoice (applyFullOps db ops) iid = some inv := by
    induction ops generalizing db with
    | nil => exact ⟨hwf, h⟩
    | cons op rest ih =>
      obtain ⟨hw, hl⟩ := applyFullOp_preserves db op hwf
      exact ih (applyFullOp db op) hw (hl iid inv h)
  refine ⟨hmain.2, ?_⟩
  unfold getInvoiceById
  rw [hmain.2, h]

/-- The store of `dbAfterInvW` is well-formed and holds `invW`; these ops
change A's price, purchase a unit, and create another invoice. -/
theorem invoice_immutable_witness :
    lookupInvoice (applyFullOps dbAfterInvW
      [.updateProduct "A" { name := "A", description := "", price := 999,
                            quantity := 3, businessId := "biz" },
       .purchase "A" 1,
       .invoice "u" "biz" [("A", 1)] 9]) 0 = some invW
    ∧ getInvoiceById (applyFullOps dbAfterInvW
      [.updateProduct "A" { name := "A", description := "", price := 999,
                            quantity := 3, businessId := "biz" },
       .purchase "A" 1,
       .invoice "u" "biz" [("A", 1)] 9]) 0 "x" .admin =
      getInvoiceById dbAfterInvW 0 "x" .admin :=
  invoice_immutable dbAfterInvW
    [.updateProduct "A" { name := "A", description := "", price := 999,
                          quantity := 3, businessId := "biz" },
     .purchase "A" 1,
     .invoice "u" "biz" [("A", 1)] 9] 0 invW "x" .admin (by rfl) (by rfl)

/-- Claim C8: a successfully created invoice that was given no explicit
number carries `invoiceNumber = "INV-" + now` (the route never supplies
one, so the pre-validate hook always synthesizes it); a second creation in
the same millisecond `now` generates the same string, so it can never
succeed, and whenever it gets as far as its save (its reservations all
passed), it is rejected with the observable duplicate-key failure. -/
theorem invoiceNumber_timestamped_and_unique (db db2 : DB) (u b : String)
    (items : List (String × Int)) (now : Nat) (inv : Invoice)
    (h : createInvoice db u b items now = (db2, .created inv)) :
    inv.invoiceNumber = "INV-" ++ toString now
    ∧ (∀ u' b' items' inv',
        (createInvoice db2 u' b' items' now).2 ≠ .created inv')
    ∧ (∀ u' b' items' db3 lis total, items'.isEmpty = false →
        processItems db2 items' = (db3, .ok (lis, total)) →
        (createInvoice db2 u' b' items' now).2 =
          .saveFailed ("E11000 duplicate key: invoiceNumber " ++
            ("INV-" ++ toString now))) := by
  obtain ⟨db1, lis0, total0, hie, hp, hdup, hinv, hdb2⟩ :=
    createInvoice_created_spec db db2 u b items now inv h
  have hnum : inv.invoiceNumber = "INV-" ++ toString now := by rw [hinv]
  have hmem : db2.invoices.any
      (fun i => i.invoiceNumber == "INV-" ++ toString now) = true := by
    rw [hdb2]
    show ((inv :: db1.invoices).any
      fun i => i.invoiceNumber == "INV-" ++ toString now) = true
    simp only [List.any_cons, Bool.or_eq_true]
    left
    rw [hnum]
    simp
  refine ⟨hnum, ?_, ?_⟩
  · intro u' b' items' inv' hcon
    rcases hs : createInvoice db2 u' b' items' now with ⟨db3', r'⟩
    rw [hs] at hcon
    have hr : r' = .created inv' := hcon
    subst hr
    obtain ⟨db31, lis', total', hie', hp', hdup', hinv', hdb3'⟩ :=
      createInvoice_created_spec db2 db3' u' b' items' now inv' hs
    have hsame := processItems_invoices db2 items'
    rw [hp'] at hsame
    rw [hsame] at hdup'
    rw [hmem] at hdup'
    exact absurd hdup' (by decide)
  · intro u' b' items' db3 lis total hne hp'
    have hsame := processItems_invoices db2 items'
    rw [hp'] at hsame
    have hany : db3.invoices.any
        (fun i => i.invoiceNumber == "INV-" ++ toString now) = true := by
      rw [hsame]; exact hmem
    unfold createInvoice
    simp only [hne, Bool.false_eq_true, if_false]
    rw [hp']
    show (match saveInvoice db3 u' b' lis total now with
      | (db'', Except.ok inv) => (db'', InvoiceResult.created inv)
      | (db'', Except.error msg) => (db'', InvoiceResult.saveFailed msg)).2 = _
    unfold saveInvoice
    dsimp only
    simp only [hany, if_true]

/-- Witness for `invoiceNumber_timestamped_and_unique`: creating an invoice
on `dbAB` for one unit of A at millisecond 5 yields `invW` with number
INV-5, and a second creation at millisecond 5, whose reservation of one
more unit of A succeeds, is rejected with the duplicate-key failure. -/
theorem invoiceNumber_timestamped_and_unique_witness :
    invW.invoiceNumber = "INV-" ++ toString 5
    ∧ (createInvoice dbAfterInvW "v" "biz" [("A", 1)] 5).2 =
        .saveFailed ("E11000 duplicate key: invoiceNumber " ++
          ("INV-" ++ toString 5)) :=
  ⟨(invoiceNumber_timestamped_and_unique dbAB dbAfterInvW "u" "biz" [("A", 2)]
      5 invW (by rfl)).1,
   (invoiceNumber_timestamped_and_unique dbAB dbAfterInvW "u" "biz" [("A", 2)]
      5 invW (by rfl)).2.2 "v" "biz" [("A", 1)]
      (processItems dbAfterInvW [("A", 1)]).1
      [{ product := "A", quantity := 1, pricePerUnit := 10, totalPrice := 10 }]
      10 (by rfl) (by rfl)⟩

/-- Claim C9: for `GET /invoice/:id` on a stored invoice, a requester with
role customer whose user id differs from the invoice's customer reference
gets 403 Unauthorized and no invoice; the invoice's own customer gets it;
and any non-customer role gets it. -/
theorem get_invoice_role_scoping (db : DB) (iid : Nat) (u : String)
    (role : Role) (inv : Invoice)
    (h : lookupInvoice db iid = some inv) :
    (inv.customer ≠ u → getInvoiceById db iid u .customer = .unauthorized)
    ∧ (inv.customer = u → getInvoiceById db iid u .customer = .ok inv)
    ∧ (role ≠ .customer → getInvoiceById db iid u role = .ok inv) := by
  unfold getInvoiceById
  rw [h]
  refine ⟨?_, ?_, ?_⟩
  · intro hne
    show (if Role.customer = Role.customer ∧ inv.customer ≠ u
      then GetInvoiceResult.unauthorized else GetInvoiceResult.ok inv) =
        GetInvoiceResult.unauthorized
    rw [if_pos ⟨rfl, hne⟩]
  · intro heq
    show (if Role.customer = Role.customer ∧ inv.customer ≠ u
      then GetInvoiceResult.unauthorized else GetInvoiceResult.ok inv) =
        GetInvoiceResult.ok inv
    rw [if_neg (by simp [heq])]
  · intro hne
    show (if role = Role.customer ∧ inv.customer ≠ u
      then GetInvoiceResult.unauthorized else GetInvoiceResult.ok inv) =
        GetInvoiceResult.ok inv
    rw [if_neg (by simp [hne])]

/-- Witness for `get_invoice_role_scoping` on `dbAfterInvW`, which stores
`invW` owned by customer "u": customer "v" is refused with 403, customer
"u" and admin "v" both receive the invoice. -/
theorem get_invoice_role_scoping_witness :
    getInvoiceById dbAfterInvW 0 "v" .customer = .unauthorized
    ∧ getInvoiceById dbAfterInvW 0 "u" .customer = .ok invW
    ∧ getInvoiceById dbAfterInvW 0 "v" .admin = .ok invW :=
  ⟨(get_invoice_role_scoping dbAfterInvW 0 "v" .admin invW (by rfl)).1
      (by decide),
   (get_invoice_role_scoping dbAfterInvW 0 "u" .admin invW (by rfl)).2.1
      (by rfl),
   (get_invoice_role_scoping dbAfterInvW 0 "v" .admin invW (by rfl)).2.2
      (by decide)⟩

/-- The reservation loop never reads the businesses collection: running it
on a store with any other businesses list gives the same outcome and the
same store up to that list. -/
theorem processItems_with_businesses (db : DB) (bs : List String)
    (items : List (String × Int)) :
    processItems { db with businesses := bs } items =
      ({ (processItems db items).1 with businesses := bs },
       (processItems db items).2) := by
  induction items generalizing db with
  | nil => rfl
  | cons hd rest ih =>
    obtain ⟨pid, q⟩ := hd
    unfold processItems
    have hf : findProduct { db with businesses := bs } pid =
      findProduct db pid := rfl
    rw [hf]
    cases hfind : findProduct db pid with
    | none => rfl
    | some p =>
      by_cases hq : p.quantity < q
      · simp only [if_pos hq]
      · simp only [if_neg hq]
        have hs : saveProduct { db with businesses := bs } pid
            { p with quantity := p.quantity - q } =
            { saveProduct db pid { p with quantity := p.quantity - q } with
                businesses := bs } := rfl
        rw [hs, ih]
        rcases hp : processItems
            (saveProduct db pid { p with quantity := p.quantity - q })
            rest with ⟨dbm, r⟩
        cases r with
        | ok v => obtain ⟨lis, t⟩ := v; rfl
        | error e => rfl

theorem saveInvoice_with_businesses (db : DB) (bs : List String)
    (c b : String) (lis : List LineItem) (total : Int) (now : Nat) :
    saveInvoice { db with businesses := bs } c b lis total now =
      ({ (saveInvoice db c b lis total now).1 with businesses := bs },
       (saveInvoice db c b lis total now).2) := by
  unfold saveInvoice
  dsimp only
  cases hdup : db.invoices.any
      (fun i => i.invoiceNumber == "INV-" ++ toString now) with
  | true => simp only [hdup, if_true]
  | false => simp only [hdup, Bool.false_eq_true, if_false]

/-- Claim C10: the created invoice's customer reference is the
authenticated token's userId — a `customer` field in the request body is
never read — and the business reference is copied from the body with no
existence check (the outcome ignores the businesses collection entirely):
substituting any other business id in the same request yields the same
invoice with only the business field changed, whatever products are
purchased and whoever owns them. -/
theorem createInvoice_customer_from_token (db : DB) (u : String)
    (body : InvoiceRequestBody) (now : Nat) (bs : List String)
    (c1 c2 : Option String) (b2 : String) :
    handleCreateInvoice db u { body with customer := c1 } now =
      handleCreateInvoice db u { body with customer := c2 } now
    ∧ (handleCreateInvoice { db with businesses := bs } u body now).2 =
      (handleCreateInvoice db u body now).2
    ∧ (∀ db' inv, handleCreateInvoice db u body now = (db', .created inv) →
        inv.customer = u ∧ inv.business = body.business
        ∧ (createInvoice db u b2 body.products now).2 =
            .created { inv with business := b2 }) := by
  refine ⟨rfl, ?_, ?_⟩
  · unfold handleCreateInvoice createInvoice
    cases hie : body.products.isEmpty with
    | true => simp only [hie, if_true]
    | false =>
      simp only [hie, Bool.false_eq_true, if_false]
      rw [processItems_with_businesses]
      rcases hp : processItems db body.products with ⟨db1, r⟩
      cases r with
      | error e => rfl
      | ok v =>
        obtain ⟨lis, total⟩ := v
        show (match saveInvoice { db1 with businesses := bs } u body.business
            lis total now with
          | (db'', Except.ok inv) => (db'', InvoiceResult.created inv)
          | (db'', Except.error msg) => (db'', InvoiceResult.saveFailed msg)).2 =
          (match saveInvoice db1 u body.business lis total now with
          | (db'', Except.ok inv) => (db'', InvoiceResult.created inv)
          | (db'', Except.error msg) => (db'', InvoiceResult.saveFailed msg)).2
        rw [saveInvoice_with_businesses]
        rcases hs : saveInvoice db1 u body.business lis total now with ⟨db2, r2⟩
        cases r2 with
        | ok inv => rfl
        | error msg => rfl
  · intro db' inv h
    obtain ⟨db1, lis, total, hie, hp, hdup, hinv, -⟩ :=
      createInvoice_created_spec db db' u body.business body.products now inv h
    refine ⟨by rw [hinv], by rw [hinv], ?_⟩
    unfold createInvoice
    simp only [hie, Bool.false_eq_true, if_false]
    rw [hp]
    show (match saveInvoice db1 u b2 lis total now with
      | (db'', Except.ok inv) => (db'', InvoiceResult.created inv)
      | (db'', Except.error msg) => (db'', InvoiceResult.saveFailed msg)).2 =
        .created { inv with business := b2 }
    unfold saveInvoice
    dsimp only
    simp only [hdup, Bool.false_eq_true, if_false]
    rw [hinv]

/-- Witness for `createInvoice_customer_from_token`: on `dbAB` with a body
that smuggles `customer := some "mallory"`, the created invoice's customer
is the token's "u", its business is the body's "biz", and re-running the
same purchase under business id "other" yields the same invoice with only
the business field changed. -/
theorem createInvoice_customer_from_token_witness :
    handleCreateInvoice dbAB "u"
      { products := [("A", 2)], business := "biz", customer := some "mallory" }
      5 =
      handleCreateInvoice dbAB "u"
        { products := [("A", 2)], business := "biz", customer := none } 5
    ∧ invW.customer = "u" ∧ invW.business = "biz"
    ∧ (createInvoice dbAB "u" "other" [("A", 2)] 5).2 =
        .created { invW with business := "other" } :=
  ⟨(createInvoice_customer_from_token dbAB "u"
      { products := [("A", 2)], business := "biz", customer := none } 5 []
      (some "mallory") none "other").1,
   (createInvoice_customer_from_token dbAB "u"
      { products := [("A", 2)], business := "biz", customer := none } 5 []
      (some "mallory") none "other").2.2 dbAfterInvW invW (by rfl)⟩
